import Mathlib

/-!
Verification development for the broot flat-tree renderer
(src/displayable_tree.rs).  The renderer is embedded shallowly: every
call the Rust code issues on the output sink is recorded as one `Tok`
value, in program order, so a render pass is a pure function from the
tree, skin, viewport and mode to a list of tokens, plus a fallible
emission layer modelling the sink.  Types owned by files absent from
src (flat_tree.rs, file_sizes.rs, the skin, the pattern collaborator,
termimad) are modelled from the specification and carry a doc comment
saying so.
-/

namespace Broot

/-- Terminal colors, abstracted as plain naturals. -/
abbrev Color := Nat

/-- Modelled from the spec: a termimad compound style, an immutable pair of
optional foreground/background terminal colors attached to a semantic role
(the concrete type lives in the external termimad crate). -/
structure CompoundStyle where
  fg : Option Color := none
  bg : Option Color := none
  deriving DecidableEq

/-- Embeds CompoundStyle::set_bg. -/
def CompoundStyle.set_bg (st : CompoundStyle) (c : Color) : CompoundStyle :=
  { st with bg := some c }

/-- Embeds CompoundStyle::get_bg. -/
def CompoundStyle.get_bg (st : CompoundStyle) : Option Color :=
  st.bg

/-- Modelled from the spec: the skin maps each semantic role used by
displayable_tree.rs to a style (skin.rs is not under src). -/
structure Skin where
  tree : CompoundStyle
  file : CompoundStyle
  directory : CompoundStyle
  exe : CompoundStyle
  link : CompoundStyle
  pruning : CompoundStyle
  permissions : CompoundStyle
  dates : CompoundStyle
  selected_line : CompoundStyle
  char_match : CompoundStyle
  file_error : CompoundStyle
  default : CompoundStyle
  scrollbar_thumb : CompoundStyle
  scrollbar_track : CompoundStyle
  deriving DecidableEq

/-- Modelled from the spec: a last-modified timestamp already converted to the
local calendar fields the `%Y/%m/%d %R` chrono format reads. -/
structure DateTime where
  year : Nat
  month : Nat
  day : Nat
  hour : Nat
  minute : Nat
  deriving DecidableEq

/-- Modelled from the spec: the per-line platform metadata snapshot
(owner id, group id, permission bits, optional modified time; a missing
modified time models a failing `metadata.modified()` call). -/
structure Metadata where
  uid : Nat
  gid : Nat
  mode : Nat
  modified : Option DateTime
  deriving DecidableEq

/-- Embeds flat_tree::LineType (modelled from the spec, flat_tree.rs is not
under src): the semantic kind of a flattened line. -/
inductive LineType where
  | dir
  | file
  | symLinkToFile (target : String)
  | symLinkToDir (target : String)
  | pruning
  deriving DecidableEq

/-- Modelled from the spec: the opaque search pattern handed to the external
highlight collaborator; the renderer only passes it along. -/
structure Pattern where
  tag : Nat
  deriving DecidableEq

/-- Modelled from the spec: one flattened tree node (flat_tree.rs is not under
src).  `exe` caches the result of the `is_exe()` predicate. -/
structure TreeLine where
  path : String
  name : String
  depth : Nat
  left_branchs : List Bool
  line_type : LineType
  size : Option Nat
  metadata : Metadata
  unlisted : Nat
  has_error : Bool
  exe : Bool
  deriving DecidableEq

/-- Embeds TreeLine::is_exe via the cached flag. -/
def TreeLine.is_exe (l : TreeLine) : Bool :=
  l.exe

/-- Modelled from the spec: a line is a directory when its kind resolves to a
directory (plain directory or symlink to one). -/
def TreeLine.is_dir (l : TreeLine) : Bool :=
  match l.line_type with
  | LineType.dir => true
  | LineType.symLinkToDir _ => true
  | _ => false

/-- Modelled from the spec: every kind except the synthetic pruning marker is
selectable. -/
def TreeLine.is_selectable (l : TreeLine) : Bool :=
  match l.line_type with
  | LineType.pruning => false
  | _ => true

/-- Modelled from the spec: the display toggles and active pattern read by the
renderer (tree_options.rs is not under src). -/
structure TreeOptions where
  show_sizes : Bool
  show_dates : Bool
  show_permissions : Bool
  pattern : Pattern
  deriving DecidableEq

/-- Modelled from the spec: the flat tree, an ordered line sequence plus view
state; `scroll` is a first-row offset kept nonnegative by the input handler
(flat_tree.rs is not under src). -/
structure Tree where
  lines : List TreeLine
  scroll : Nat
  selection : Nat
  options : TreeOptions
  deriving DecidableEq

/-- Modelled from the spec: the derived lookahead query of the Tree, asking
whether any row at index `line_index` or later still requires a connector at
ancestor depth `depth` (a row needs one when its own depth is deeper and its
branch-continuation bit at that depth is set). -/
def Tree.has_branch (t : Tree) (line_index : Nat) (depth : Nat) : Bool :=
  (t.lines.drop line_index).any
    (fun l => decide (depth < l.depth) && l.left_branchs.getD depth false)

/-- Modelled from the spec: the derived total size of the tree, taken as the
root's aggregated size (the spec leaves the formula to flat_tree.rs, which is
not under src; no claim depends on its value). -/
def Tree.total_size (t : Tree) : Nat :=
  (t.lines.head?.bind (fun l => l.size)).getD 0

/-- Embeds termimad::Area, the viewport rectangle. -/
structure Area where
  left : Nat
  top : Nat
  width : Nat
  height : Nat
  deriving DecidableEq

/-- Embeds DisplayableTree (the tree wrapper of displayable_tree.rs). -/
structure DisplayableTree where
  tree : Tree
  skin : Skin
  area : Area
  in_app : Bool

/-- Embeds DisplayableTree::out_of_app: batch construction, with the
viewport height set to the line count cast to u16 (hence reduced mod 2 ^ 16). -/
def out_of_app (tree : Tree) (skin : Skin) (width : Nat) : DisplayableTree :=
  { tree := tree
    skin := skin
    area := { left := 0, top := 0, width := width, height := tree.lines.length % 65536 }
    in_app := false }

/-- External collaborators consumed by the renderer, kept abstract: owner and
group name lookup, human-readable size text, permission-bits text. -/
structure Env where
  userName : Nat → String
  groupName : Nat → String
  sizeToString : Nat → String
  modeString : Nat → String

/-- One recorded call on the output sink, in program order: styled text,
background/foreground-only style application, raw formatted text, the
delegated pattern highlight, cursor moves, the line clear and the
background reset. -/
inductive Tok where
  | styledStr (style : CompoundStyle) (s : String)
  | setBg (style : CompoundStyle)
  | setFg (style : CompoundStyle)
  | write (s : String)
  | patternStyled (p : Pattern) (name : String) (style : CompoundStyle) (matchStyle : CompoundStyle)
  | moveTo (x : Nat) (y : Nat)
  | clearUntilNewLine
  | resetBgColor
  deriving DecidableEq

/-- A run of `n` spaces. -/
def spaces (n : Nat) : String :=
  String.mk (List.replicate n ' ')

/-- Right-alignment to a minimum width, as Rust `{:>w$}`. -/
def padLeft (w : Nat) (s : String) : String :=
  spaces (w - s.length) ++ s

/-- Left-alignment to a minimum width, as Rust `{:<w$}` or `{:w$}` on strings. -/
def padRight (s : String) (w : Nat) : String :=
  s ++ spaces (w - s.length)

/-- Embeds the role-to-style match of name_style (also duplicated at the top
of write_line_name). -/
def Skin.name_style (skin : Skin) (line : TreeLine) : CompoundStyle :=
  match line.line_type with
  | LineType.dir => skin.directory
  | LineType.file => if line.is_exe then skin.exe else skin.file
  | LineType.symLinkToFile _ => skin.link
  | LineType.symLinkToDir _ => skin.link
  | LineType.pruning => skin.pruning

/-- Modelled from the spec: the filled-cell count of the 10-cell proportional
bar is the floor of fraction-of-total times 10, clamped to [0, 10], and the
fraction is 0 when the total is 0 (Size::part_of lives in file_sizes.rs and
the bar in termimad, both outside src); computed in integer arithmetic. -/
def barFilled (s : Nat) (total : Nat) : Nat :=
  if total = 0 then 0 else min 10 (s * 10 / total)

/-- Modelled from the spec: Size::part_of as an exact fraction, 0 when the
total is 0. -/
def sizePartOf (s : Nat) (total : Nat) : ℚ :=
  if total = 0 then 0 else (s : ℚ) / (total : ℚ)

/-- The 10-cell bar text: filled cells then blank cells. -/
def barString (s : Nat) (total : Nat) : String :=
  String.mk (List.replicate (barFilled s total) '█' ++ List.replicate (10 - barFilled s total) ' ')

/-- The dashed placeholder printed for a line with no size. -/
def sizePlaceholder : String :=
  "──────────────── "

/-- Embeds write_line_size: the size column of one line. -/
def write_line_size (env : Env) (skin : Skin) (line : TreeLine) (total_size : Nat)
    (selected : Bool) : List Tok :=
  match line.size with
  | some s =>
      (if selected then [Tok.setBg skin.selected_line] else [])
        ++ [Tok.setFg (skin.name_style line),
            Tok.write (padLeft 5 (env.sizeToString s) ++ " " ++ padRight (barString s total_size) 10 ++ " ")]
  | none => [Tok.styledStr skin.tree sizePlaceholder]

/-- Two decimal digits, zero padded, as chrono prints `%m`, `%d`, `%H`, `%M`. -/
def dec2 (n : Nat) : String :=
  String.mk [Nat.digitChar (n / 10 % 10), Nat.digitChar (n % 10)]

/-- Four decimal digits, zero padded, as chrono prints `%Y` for the years the
spec's `YYYY/MM/DD HH:MM` format names. -/
def dec4 (n : Nat) : String :=
  String.mk [Nat.digitChar (n / 1000 % 10), Nat.digitChar (n / 100 % 10),
    Nat.digitChar (n / 10 % 10), Nat.digitChar (n % 10)]

/-- Modelled from the spec: the chrono `%Y/%m/%d %R ` rendering of a local
date-time (chrono is an external crate). -/
def formatDate (d : DateTime) : String :=
  dec4 d.year ++ "/" ++ dec2 d.month ++ "/" ++ dec2 d.day ++ " "
    ++ dec2 d.hour ++ ":" ++ dec2 d.minute ++ " "

/-- Embeds write_date: the formatted modification time in the dates style. -/
def write_date (skin : Skin) (d : DateTime) : List Tok :=
  [Tok.styledStr skin.dates (formatDate d)]

/-- The dashed placeholder printed when the modified time is unavailable. -/
def datePlaceholder : String :=
  "──────────────── "

/-- The date column of one line, as composed inside write_on. -/
def dateTokens (skin : Skin) (line : TreeLine) : List Tok :=
  match line.metadata.modified with
  | some d => write_date skin d
  | none => [Tok.styledStr skin.tree datePlaceholder]

/-- The dashed placeholder printed for a non-selectable line in the
permissions column. -/
def permissionsPlaceholder : String :=
  "──────────────"

/-- The permissions column of one line, as composed inside write_on: the
permission bits in the permissions style, then the owner and group names
left-padded to the precomputed widths. -/
def permissionsTokens (env : Env) (skin : Skin) (widths : Nat × Nat) (line : TreeLine) : List Tok :=
  if line.is_selectable then
    [Tok.styledStr skin.permissions (env.modeString line.metadata.mode),
     Tok.write (" " ++ padRight (env.userName line.metadata.uid) widths.1),
     Tok.write (" " ++ padRight (env.groupName line.metadata.gid) widths.2 ++ " ")]
  else
    [Tok.styledStr skin.tree permissionsPlaceholder]

/-- Embeds user_group_max_lengths: the running maxima of owner and group name
lengths over the lines of index 1 and up, when permissions are shown. -/
def user_group_max_lengths (env : Env) (tree : Tree) : Nat × Nat :=
  if tree.options.show_permissions then
    (tree.lines.drop 1).foldl
      (fun m l =>
        (max m.1 (env.userName l.metadata.uid).length,
         max m.2 (env.groupName l.metadata.gid).length))
      (0, 0)
  else (0, 0)

/-- Embeds the branch-glyph choice of write_on for one ancestor column. -/
def branchGlyph (tree : Tree) (line : TreeLine) (line_index : Nat) (d : Nat) : String :=
  if line.left_branchs.getD d false then
    if tree.has_branch (line_index + 1) d then
      if d = line.depth - 1 then "├──" else "│  "
    else "└──"
  else "   "

/-- The branch-prefix columns of one line, as composed inside write_on. -/
def branchTokens (skin : Skin) (tree : Tree) (line : TreeLine) (line_index : Nat) : List Tok :=
  (List.range line.depth).map (fun d => Tok.styledStr skin.tree (branchGlyph tree line line_index d))

/-- The symlink tail of the name column: the arrow then the target, styled by
the resolved kind, or by the error style when the line has an error. -/
def symlinkTail (skin : Skin) (line : TreeLine) (selected : Bool) (style : CompoundStyle)
    (target : String) : List Tok :=
  [Tok.styledStr style " -> "]
    ++ (if line.has_error then
          [Tok.styledStr skin.file_error target]
        else
          let ts0 := if line.is_dir then skin.directory else skin.file
          let ts :=
            if selected then
              match skin.selected_line.get_bg with
              | some c => ts0.set_bg c
              | none => ts0
            else ts0
          [Tok.styledStr ts target])

/-- Embeds write_line_name: the name column of one line; for index 0 the full
path, otherwise the delegated pattern highlight, then the unlisted marker or
the symlink tail. -/
def write_line_name (skin : Skin) (line : TreeLine) (idx : Nat) (p : Pattern)
    (selected : Bool) : List Tok :=
  let style0 := skin.name_style line
  let style :=
    if selected then
      match skin.selected_line.get_bg with
      | some c => style0.set_bg c
      | none => style0
    else style0
  let cms :=
    if selected then
      match skin.selected_line.get_bg with
      | some c => skin.char_match.set_bg c
      | none => skin.char_match
    else skin.char_match
  (if idx = 0 then [Tok.styledStr style line.path]
   else [Tok.patternStyled p line.name style cms])
    ++ (match line.line_type with
        | LineType.dir => if 0 < line.unlisted then [Tok.styledStr style " …"] else []
        | LineType.symLinkToFile target => symlinkTail skin line selected style target
        | LineType.symLinkToDir target => symlinkTail skin line selected style target
        | _ => [])

/-- The column composition of one visible line inside write_on: branch
mark columns, then the toggled size, permissions and date columns, then the
name column. -/
def contentTokens (env : Env) (skin : Skin) (tree : Tree) (widths : Nat × Nat)
    (line : TreeLine) (line_index : Nat) (selected : Bool) : List Tok :=
  branchTokens skin tree line line_index
    ++ (if tree.options.show_sizes ∧ 0 < line_index then
          write_line_size env skin line tree.total_size selected
        else [])
    ++ (if tree.options.show_permissions ∧ 0 < line_index then
          permissionsTokens env skin widths line
        else [])
    ++ (if tree.options.show_dates ∧ 0 < line_index then
          dateTokens skin line
        else [])
    ++ write_line_name skin line line_index tree.options.pattern selected

/-- The viewport-row to line-index mapping of write_on: row 0 maps to line 0,
any later row is shifted by the scroll offset. -/
def lineIndexOf (tree : Tree) (y : Nat) : Nat :=
  if y = 0 then 0 else y + tree.scroll

/-- The selected flag of one row: interactive mode, index equal to the
selection, and the index in range (outside the range the flag keeps its
initial false value). -/
def rowSelected (dt : DisplayableTree) (li : Nat) : Bool :=
  dt.in_app && decide (li = dt.tree.selection) && decide (li < dt.tree.lines.length)

/-- The scrollbar cell of one row: the reserved rightmost column gets the
thumb glyph inside the thumb span and the track glyph outside; nothing when
no scrollbar was computed. -/
def scrollSeg (dt : DisplayableTree) (scrollbar : Option (Nat × Nat)) (y : Nat) : List Tok :=
  match scrollbar with
  | some (sctop, scbottom) =>
      [Tok.moveTo dt.area.width y,
       Tok.styledStr
         (if sctop ≤ y ∧ y ≤ scbottom then dt.skin.scrollbar_thumb else dt.skin.scrollbar_track)
         "▐"]
  | none => []

/-- The carriage-return line-feed ending every row. -/
def crlf : String :=
  "\r\n"

/-- One iteration of the row loop of write_on: optional cursor move, the
line's columns when the index is in range, the row background, then in
interactive mode the line clear, the background reset and the scrollbar
cell, and the row terminator. -/
def rowTokens (env : Env) (dt : DisplayableTree) (widths : Nat × Nat)
    (scrollbar : Option (Nat × Nat)) (y : Nat) : List Tok :=
  let li := lineIndexOf dt.tree y
  let selected := rowSelected dt li
  (if dt.in_app then [Tok.moveTo 0 y] else [])
    ++ (match dt.tree.lines[li]? with
        | some line => contentTokens env dt.skin dt.tree widths line li selected
        | none => [])
    ++ [Tok.setBg (if selected then dt.skin.selected_line else dt.skin.default)]
    ++ (if dt.in_app then
          Tok.clearUntilNewLine :: Tok.resetBgColor :: scrollSeg dt scrollbar y
        else [])
    ++ [Tok.write crlf]

/-- Modelled from the spec: termimad's Area::scrollbar; no scrollbar when the
content fits the viewport, otherwise a thumb span positioned and sized
proportionally, rounded to row granularity and clamped nonempty. -/
def areaScrollbar (area : Area) (scroll : Nat) (total : Nat) : Option (Nat × Nat) :=
  if total ≤ area.height then none
  else
    let sctop := scroll * area.height / total
    let h := max 1 (area.height * area.height / total)
    some (sctop, min (area.height - 1) (sctop + h - 1))

/-- Embeds write_on as the list of sink calls of one full render pass. -/
def writeOnTokens (env : Env) (dt : DisplayableTree) : List Tok :=
  let widths := user_group_max_lengths env dt.tree
  let scrollbar :=
    if dt.in_app then areaScrollbar dt.area dt.tree.scroll dt.tree.lines.length else none
  (List.range dt.area.height).flatMap (rowTokens env dt widths scrollbar)

/-- The fallible sink: token `t` at write count `n` either fails (keeping the
tokens already written and reporting the failure point) or is appended. -/
def emitFrom (fails : Nat → Bool) : List Tok → List Tok × Nat → Except (List Tok × Nat) (List Tok × Nat)
  | [], st => Except.ok st
  | t :: ts, st =>
      if fails st.2 then Except.error st
      else emitFrom fails ts (st.1 ++ [t], st.2 + 1)

/-- Embeds write_on against a fallible sink: each sink call is attempted in
program order and the first failure aborts the pass. -/
def write_on (env : Env) (dt : DisplayableTree) (fails : Nat → Bool) :
    Except (List Tok × Nat) (List Tok × Nat) :=
  emitFrom fails (writeOnTokens env dt) ([], 0)

/-! ## Specification-side definitions used for refinement comparisons -/

/-- The branch glyph exactly as claim C1 states it: blank when the
continuation bit is off; the turn glyph when the bit is on, no later row has
an open branch and this is the last ancestor level; the continue glyph at
the last ancestor level when a later row is still open; the pass-through
glyph below the last level when a later row is still open; else blank. -/
def specBranchGlyph (lb : List Bool) (depth : Nat) (d : Nat) (later : Bool) : String :=
  if lb.getD d false = false then "   "
  else if lb.getD d false = true ∧ later = false ∧ d = depth - 1 then "└──"
  else if d = depth - 1 ∧ lb.getD d false = true ∧ later = true then "├──"
  else if d < depth - 1 ∧ lb.getD d false = true ∧ later = true then "│  "
  else "   "

/-- The branch glyph as claim C1 holds after amendment: the turn glyph is
emitted at every ancestor level whose branch is open but has no later row
still open, not only at the last level. -/
def specBranchGlyphAmended (lb : List Bool) (depth : Nat) (d : Nat) (later : Bool) : String :=
  if lb.getD d false = false then "   "
  else if later = false then "└──"
  else if d = depth - 1 then "├──"
  else "│  "

/-- The pad widths exactly as claim C2 states them: the maxima of owner and
group name lengths over all lines of the tree, index 0 included. -/
def specUserGroupMaxAll (env : Env) (tree : Tree) : Nat × Nat :=
  (tree.lines.foldl (fun m l => max m (env.userName l.metadata.uid).length) 0,
   tree.lines.foldl (fun m l => max m (env.groupName l.metadata.gid).length) 0)

/-! ## Concrete fixtures -/

/-- A skin giving every role a distinct foreground and the selection, dates
and default roles distinct backgrounds. -/
def skin0 : Skin :=
  { tree := { fg := some 1 }
    file := { fg := some 2 }
    directory := { fg := some 3 }
    exe := { fg := some 4 }
    link := { fg := some 5 }
    pruning := { fg := some 6 }
    permissions := { fg := some 7 }
    dates := { fg := some 8, bg := some 7 }
    selected_line := { bg := some 3 }
    char_match := { fg := some 9 }
    file_error := { fg := some 10 }
    default := { bg := some 0 }
    scrollbar_thumb := { fg := some 11 }
    scrollbar_track := { fg := some 12 } }

/-- A sample collaborator environment: owner id 0 resolves to an 8-character
name, every other id to a 2-character one. -/
def env0 : Env :=
  { userName := fun u => if u = 0 then "rootlong" else "ab"
    groupName := fun _ => "gg"
    sizeToString := fun s => toString s
    modeString := fun _ => "rw-r--r--" }

/-- Metadata of the sample root line. -/
def mdRoot : Metadata :=
  { uid := 0, gid := 0, mode := 509, modified := none }

/-- Metadata of the other sample lines, with a readable modified time. -/
def md1 : Metadata :=
  { uid := 1, gid := 1, mode := 420, modified := some ⟨2020, 1, 2, 3, 4⟩ }

/-- The sample root line. -/
def rootLine : TreeLine :=
  { path := "/r", name := "r", depth := 0, left_branchs := [], line_type := LineType.dir,
    size := some 100, metadata := mdRoot, unlisted := 0, has_error := false, exe := false }

/-- A sample depth-1 directory line whose branch at level 0 is open. -/
def lineA : TreeLine :=
  { path := "/r/a", name := "a", depth := 1, left_branchs := [true], line_type := LineType.dir,
    size := some 60, metadata := md1, unlisted := 0, has_error := false, exe := false }

/-- A sample depth-2 file line, last line of the tree, both branch bits on. -/
def lineB : TreeLine :=
  { path := "/r/a/b", name := "b", depth := 2, left_branchs := [true, true],
    line_type := LineType.file, size := some 60, metadata := md1, unlisted := 0,
    has_error := false, exe := false }

/-- Display options with everything off. -/
def optsOff : TreeOptions :=
  { show_sizes := false, show_dates := false, show_permissions := false, pattern := ⟨0⟩ }

/-- The three-line sample tree root/a/b used against claim C1. -/
def tree0 : Tree :=
  { lines := [rootLine, lineA, lineB], scroll := 0, selection := 0, options := optsOff }

/-- Display options showing only permissions. -/
def optsPerm : TreeOptions :=
  { show_sizes := false, show_dates := false, show_permissions := true, pattern := ⟨0⟩ }

/-- The two-line sample tree with permissions shown; the root's owner name is
the longest of the tree. -/
def tree2 : Tree :=
  { lines := [rootLine, lineA], scroll := 0, selection := 0, options := optsPerm }

/-- The batch renderer over the permissions sample tree. -/
def dt2 : DisplayableTree :=
  out_of_app tree2 skin0 80

/-- Display options showing only dates. -/
def optsDates : TreeOptions :=
  { show_sizes := false, show_dates := true, show_permissions := false, pattern := ⟨0⟩ }

/-- The two-line sample tree with dates shown and the second line selected. -/
def tree3 : Tree :=
  { lines := [rootLine, lineA], scroll := 0, selection := 1, options := optsDates }

/-- The interactive renderer over the dates sample tree. -/
def dt3 : DisplayableTree :=
  { tree := tree3, skin := skin0, area := { left := 0, top := 0, width := 80, height := 2 },
    in_app := true }

/-- The two-line sample tree with a nonzero scroll offset, used against the
batch-mode claim. -/
def tree4 : Tree :=
  { lines := [rootLine, lineA], scroll := 1, selection := 0, options := optsOff }

/-- The batch renderer over the three-line sample tree. -/
def dt5 : DisplayableTree :=
  out_of_app tree0 skin0 80

/-- Display options showing only sizes. -/
def optsSizes : TreeOptions :=
  { show_sizes := true, show_dates := false, show_permissions := false, pattern := ⟨0⟩ }

/-- The two-line sample tree with sizes shown. -/
def tree7 : Tree :=
  { lines := [rootLine, lineA], scroll := 0, selection := 0, options := optsSizes }

/-- An interactive renderer whose two-row viewport is smaller than the
three-line sample tree, so a scrollbar is computed. -/
def dt9 : DisplayableTree :=
  { tree := tree0, skin := skin0, area := { left := 0, top := 0, width := 80, height := 2 },
    in_app := true }

/-- An interactive renderer whose five-row viewport fits the three-line
sample tree, so no scrollbar is computed. -/
def dt9b : DisplayableTree :=
  { tree := tree0, skin := skin0, area := { left := 0, top := 0, width := 80, height := 5 },
    in_app := true }

/-! ## Helper lemmas -/

/-- The branch glyph the code picks coincides, at every ancestor level, with
the amended specification glyph driven by the lookahead query. -/
theorem branchGlyph_eq (tree : Tree) (line : TreeLine) (li : Nat) (d : Nat) :
    branchGlyph tree line li d
      = specBranchGlyphAmended line.left_branchs line.depth d (tree.has_branch (li + 1) d) := by
  unfold branchGlyph specBranchGlyphAmended
  cases h1 : line.left_branchs.getD d false <;>
    cases h2 : tree.has_branch (li + 1) d <;>
      simp [h1, h2]

/-- Every branch glyph is three characters wide. -/
theorem branchGlyph_len (tree : Tree) (line : TreeLine) (li : Nat) (d : Nat) :
    (branchGlyph tree line li d).length = 3 := by
  unfold branchGlyph
  repeat' split
  all_goals decide

/-- A fold updating the two maxima of a pair componentwise splits into two
independent folds. -/
theorem foldl_pair_max (f g : TreeLine → Nat) (l : List TreeLine) (m : Nat × Nat) :
    l.foldl (fun m l => (max m.1 (f l), max m.2 (g l))) m
      = (l.foldl (fun a x => max a (f x)) m.1, l.foldl (fun a x => max a (g x)) m.2) := by
  induction l generalizing m with
  | nil => rfl
  | cons x xs ih => simp [List.foldl_cons, ih]

/-- A running-max fold dominates its seed and every folded value. -/
theorem foldl_max_bounds {α : Type} (f : α → Nat) (l : List α) (a : Nat) :
    a ≤ l.foldl (fun m x => max m (f x)) a
      ∧ ∀ x ∈ l, f x ≤ l.foldl (fun m x => max m (f x)) a := by
  induction l generalizing a with
  | nil => simp
  | cons y ys ih =>
      refine ⟨le_trans (le_max_left a (f y)) (ih (max a (f y))).1, ?_⟩
      intro x hx
      rcases List.mem_cons.1 hx with hx | hx
      · subst hx
        exact le_trans (le_max_right a (f x)) (ih (max a (f x))).1
      · exact (ih (max a (f y))).2 x hx

/-- A running-max fold either keeps its seed or is attained by a folded
value. -/
theorem foldl_max_attained {α : Type} (f : α → Nat) (l : List α) (a : Nat) :
    l.foldl (fun m x => max m (f x)) a = a
      ∨ ∃ x ∈ l, f x = l.foldl (fun m x => max m (f x)) a := by
  induction l generalizing a with
  | nil => left; rfl
  | cons y ys ih =>
      rcases ih (max a (f y)) with h | ⟨x, hx, he⟩
      · rcases max_choice a (f y) with hm | hm
        · left
          rw [List.foldl_cons, h, hm]
        · right
          exact ⟨y, List.mem_cons_self y ys, by rw [List.foldl_cons, h, hm]⟩
      · right
        exact ⟨x, List.mem_cons_of_mem y hx, by rw [List.foldl_cons, he]⟩

/-- Any token of a visible row of the pass belongs to the pass's output. -/
theorem mem_writeOnTokens (env : Env) (dt : DisplayableTree) (y : Nat) (t : Tok)
    (hy : y < dt.area.height)
    (ht : t ∈ rowTokens env dt (user_group_max_lengths env dt.tree)
        (if dt.in_app then areaScrollbar dt.area dt.tree.scroll dt.tree.lines.length else none)
        y) :
    t ∈ writeOnTokens env dt := by
  unfold writeOnTokens
  exact List.mem_flatMap.2 ⟨y, List.mem_range.2 hy, ht⟩

/-- Any token of the columns of a row whose line index is in range belongs to
the row's tokens. -/
theorem mem_rowTokens_of_mem_content (env : Env) (dt : DisplayableTree) (widths : Nat × Nat)
    (sb : Option (Nat × Nat)) (y : Nat) (line : TreeLine) (t : Tok)
    (hsome : dt.tree.lines[lineIndexOf dt.tree y]? = some line)
    (ht : t ∈ contentTokens env dt.skin dt.tree widths line (lineIndexOf dt.tree y)
        (rowSelected dt (lineIndexOf dt.tree y))) :
    t ∈ rowTokens env dt widths sb y := by
  unfold rowTokens
  simp only [hsome, List.mem_append]
  left; left; left; right
  exact ht

/-- The column composition of a line issues no cursor move: every call it
records is styled or raw text, a style application, or the delegated
highlight. -/
theorem moveTo_not_mem_content (env : Env) (skin : Skin) (tree : Tree) (widths : Nat × Nat)
    (line : TreeLine) (li : Nat) (sel : Bool) (x y : Nat) :
    Tok.moveTo x y ∉ contentTokens env skin tree widths line li sel := by
  intro h
  unfold contentTokens at h
  simp only [List.mem_append] at h
  rcases h with ((((h | h) | h) | h) | h)
  · simp [branchTokens] at h
  · split at h
    · unfold write_line_size at h
      split at h
      · simp only [List.mem_append] at h
        rcases h with h | h
        · split at h <;> simp at h
        · simp at h
      · simp at h
    · simp at h
  · split at h
    · unfold permissionsTokens at h
      split at h <;> simp at h
    · simp at h
  · split at h
    · unfold dateTokens at h
      split at h <;> simp [write_date] at h
    · simp at h
  · unfold write_line_name at h
    simp only [List.mem_append] at h
    rcases h with h | h
    · split at h <;> simp at h
    · split at h
      · split at h <;> simp at h
      · unfold symlinkTail at h
        simp only [List.mem_append] at h
        rcases h with h | h
        · simp at h
        · split at h <;> simp at h
      · unfold symlinkTail at h
        simp only [List.mem_append] at h
        rcases h with h | h
        · simp at h
        · split at h <;> simp at h
      · simp at h

/-- Emission with no failing write in range appends the whole token list and
advances the write count by its length. -/
theorem emitFrom_ok (fails : Nat → Bool) (ts : List Tok) (w : List Tok) (n : Nat)
    (h : ∀ i, i < ts.length → fails (n + i) = false) :
    emitFrom fails ts (w, n) = Except.ok (w ++ ts, n + ts.length) := by
  induction ts generalizing w n with
  | nil => simp [emitFrom]
  | cons t ts ih =>
      have h0 : fails n = false := by simpa using h 0 (Nat.succ_pos _)
      unfold emitFrom
      simp only [h0, Bool.false_eq_true, if_false]
      rw [ih (w ++ [t]) (n + 1) (fun i hi => by
        have h2 := h (i + 1) (by simpa using Nat.succ_lt_succ hi)
        rw [show n + 1 + i = n + (i + 1) from by omega]
        exact h2)]
      simp only [Except.ok.injEq, Prod.mk.injEq, List.append_assoc, List.singleton_append,
        List.length_cons]
      exact ⟨trivial, by omega⟩

/-- Emission that reports a failure failed at the first failing write: the
failure index is in range, every earlier write succeeded, and exactly the
tokens before the failing write were appended. -/
theorem emitFrom_error (fails : Nat → Bool) (ts : List Tok) (w : List Tok) (n : Nat)
    (w' : List Tok) (n' : Nat)
    (h : emitFrom fails ts (w, n) = Except.error (w', n')) :
    ∃ i, i < ts.length ∧ n' = n + i ∧ fails n' = true
      ∧ (∀ j, j < i → fails (n + j) = false) ∧ w' = w ++ ts.take i := by
  induction ts generalizing w n with
  | nil => simp [emitFrom] at h
  | cons t ts ih =>
      unfold emitFrom at h
      by_cases h0 : fails n = true
      · simp only [h0, if_true, Except.error.injEq, Prod.mk.injEq] at h
        refine ⟨0, Nat.succ_pos _, by omega, ?_, ?_, ?_⟩
        · rw [← h.2, h0]
        · intro j hj
          omega
        · rw [← h.1]
          simp
      · have h0' : fails n = false := by simpa using h0
        simp only [h0', Bool.false_eq_true, if_false] at h
        rcases ih (w ++ [t]) (n + 1) h with ⟨i, hi, hn, hf, hjs, hw⟩
        refine ⟨i + 1, by simpa using Nat.succ_lt_succ hi, by omega, hf, ?_, ?_⟩
        · intro j hj
          match j with
          | 0 => simpa using h0'
          | k + 1 =>
              have h3 := hjs k (by omega)
              rw [show n + (k + 1) = n + 1 + k from by omega]
              exact h3
        · rw [hw]
          simp [List.take_succ_cons, List.append_assoc]

/-- A formatted date always occupies 17 cells: four year digits, two-digit
month, day, hour and minute, three separators, one space inside and one
trailing space. -/
theorem formatDate_length (d : DateTime) : (formatDate d).length = 17 := by
  have h1 : ∀ n, (dec2 n).length = 2 := fun n => rfl
  have h2 : ∀ n, (dec4 n).length = 4 := fun n => rfl
  have h3 : ("/" : String).length = 1 := rfl
  have h4 : (" " : String).length = 1 := rfl
  have h5 : (":" : String).length = 1 := rfl
  simp [formatDate, String.length_append, h1, h2, h3, h4, h5]

/-- The length of a run of spaces. -/
theorem spaces_length (n : Nat) : (spaces n).length = n := by
  simp [spaces]

/-- Right-aligning a string no longer than the field pads it to exactly the
field width. -/
theorem padLeft_length (w : Nat) (s : String) (h : s.length ≤ w) :
    (padLeft w s).length = w := by
  simp [padLeft, String.length_append, spaces_length]
  omega

/-- Left-aligning a string no longer than the field pads it to exactly the
field width. -/
theorem padRight_length (s : String) (w : Nat) (h : s.length ≤ w) :
    (padRight s w).length = w := by
  simp [padRight, String.length_append, spaces_length]
  omega

/-- The proportional bar never fills more than its ten cells. -/
theorem barFilled_le_ten (s total : Nat) : barFilled s total ≤ 10 := by
  unfold barFilled
  split
  · omega
  · exact Nat.min_le_left 10 _

/-- The proportional bar text is always exactly ten cells. -/
theorem barString_length (s total : Nat) : (barString s total).length = 10 := by
  have h := barFilled_le_ten s total
  simp [barString]
  omega

/-- The integer filled-cell computation agrees with the floor of the
fraction-of-total scaled to the bar width, clamped to the width. -/
theorem barFilled_eq_floor (s total : Nat) :
    barFilled s total = min 10 ⌊sizePartOf s total * 10⌋₊ := by
  unfold barFilled sizePartOf
  by_cases h : total = 0
  · simp [h]
  · rw [if_neg h, if_neg h]
    congr 1
    have hc : ((s : ℚ) / (total : ℚ)) * 10 = ((s * 10 : ℕ) : ℚ) / ((total : ℕ) : ℚ) := by
      push_cast
      ring
    rw [hc, Nat.floor_div_nat, Nat.floor_natCast]

/-! ## Claims -/

/-- C1: for a rendered line of positive depth whose branch-bit sequence covers
its depth, the branch prefix is exactly `depth` three-character glyphs, the
glyph at ancestor level `d` being blank when the bit is off, the turn glyph
when the bit is on and no later row keeps the branch open, the continue glyph
at the last level when a later row keeps it open, and the pass-through glyph
below the last level (this is the claim as amended: the turn glyph is not
restricted to the last level). -/
theorem c1_branch_glyphs (skin : Skin) (tree : Tree) (line : TreeLine) (li : Nat)
    (hd : 0 < line.depth) (hl : line.depth ≤ line.left_branchs.length) :
    branchTokens skin tree line li
      = (List.range line.depth).map
          (fun d => Tok.styledStr skin.tree
            (specBranchGlyphAmended line.left_branchs line.depth d (tree.has_branch (li + 1) d)))
      ∧ (branchTokens skin tree line li).length = line.depth
      ∧ ∀ d, d < line.depth → (branchGlyph tree line li d).length = 3 := by
  refine ⟨?_, ?_, ?_⟩
  · unfold branchTokens
    simp [branchGlyph_eq]
  · simp [branchTokens]
  · intro d _
    exact branchGlyph_len tree line li d

/-- C1 counterexample: at the last line of the sample tree (depth 2, both
branch bits on, no later row open at level 0) the code prints the turn glyph
at ancestor level 0 while the claim as stated demands blank there, because
level 0 is not the last ancestor level. -/
theorem c1_branch_glyphs_counterexample :
    0 < lineB.depth
    ∧ lineB.depth ≤ lineB.left_branchs.length
    ∧ branchGlyph tree0 lineB 2 0 = "└──"
    ∧ specBranchGlyph lineB.left_branchs lineB.depth 0 (tree0.has_branch 3 0) = "   "
    ∧ ("└──" : String) ≠ "   " := by
  decide

/-- C1 witness: the amended glyph description instantiated on the last line of
the sample tree. -/
theorem c1_branch_glyphs_witness :
    branchTokens skin0 tree0 lineB 2
      = (List.range lineB.depth).map
          (fun d => Tok.styledStr skin0.tree
            (specBranchGlyphAmended lineB.left_branchs lineB.depth d (tree0.has_branch 3 d))) :=
  (c1_branch_glyphs skin0 tree0 lineB 2 (by decide) (by decide)).1

/-- C2: when permissions are shown, the owner and group pad widths are a pure
function of the tree's line sequence and options — unchanged by scroll or
selection — are upper bounds of the owner and group name lengths over the
lines of index 1 and up, are attained there (or zero), and are the widths
every rendered permissions column of the pass pads its owner and group names
to (this is the claim as amended: the maxima range over the lines of index 1
and up, the root excluded). -/
theorem c2_pad_widths (env : Env) (tree : Tree)
    (hp : tree.options.show_permissions = true) :
    (∀ sc sel, user_group_max_lengths env { tree with scroll := sc, selection := sel }
        = user_group_max_lengths env tree)
    ∧ (∀ l ∈ tree.lines.drop 1,
        (env.userName l.metadata.uid).length ≤ (user_group_max_lengths env tree).1
        ∧ (env.groupName l.metadata.gid).length ≤ (user_group_max_lengths env tree).2)
    ∧ ((user_group_max_lengths env tree).1 = 0
        ∨ ∃ l ∈ tree.lines.drop 1,
            (env.userName l.metadata.uid).length = (user_group_max_lengths env tree).1)
    ∧ ((user_group_max_lengths env tree).2 = 0
        ∨ ∃ l ∈ tree.lines.drop 1,
            (env.groupName l.metadata.gid).length = (user_group_max_lengths env tree).2)
    ∧ (∀ (dt : DisplayableTree) (y : Nat) (line : TreeLine),
        dt.tree = tree → y < dt.area.height → 0 < lineIndexOf tree y →
        tree.lines[lineIndexOf tree y]? = some line →
        line.is_selectable = true →
        Tok.write (" " ++ padRight (env.userName line.metadata.uid)
            (user_group_max_lengths env tree).1) ∈ writeOnTokens env dt
        ∧ Tok.write (" " ++ padRight (env.groupName line.metadata.gid)
            (user_group_max_lengths env tree).2 ++ " ") ∈ writeOnTokens env dt) := by
  have hw : user_group_max_lengths env tree
      = ((tree.lines.drop 1).foldl (fun a x => max a (env.userName x.metadata.uid).length) 0,
         (tree.lines.drop 1).foldl (fun a x => max a (env.groupName x.metadata.gid).length) 0) := by
    unfold user_group_max_lengths
    rw [hp]
    simp [foldl_pair_max]
  refine ⟨fun sc sel => rfl, ?_, ?_, ?_, ?_⟩
  · intro l hl
    rw [hw]
    constructor
    · exact (foldl_max_bounds (fun x => (env.userName x.metadata.uid).length) _ 0).2 l hl
    · exact (foldl_max_bounds (fun x => (env.groupName x.metadata.gid).length) _ 0).2 l hl
  · rw [hw]
    rcases foldl_max_attained (fun x => (env.userName x.metadata.uid).length)
        (tree.lines.drop 1) 0 with h | ⟨l, hl, he⟩
    · left; exact h
    · right; exact ⟨l, hl, he⟩
  · rw [hw]
    rcases foldl_max_attained (fun x => (env.groupName x.metadata.gid).length)
        (tree.lines.drop 1) 0 with h | ⟨l, hl, he⟩
    · left; exact h
    · right; exact ⟨l, hl, he⟩
  · intro dt y line hdt hy hli hsome hsel
    subst hdt
    have hmem : ∀ t ∈ permissionsTokens env dt.skin (user_group_max_lengths env dt.tree) line,
        t ∈ writeOnTokens env dt := by
      intro t ht
      refine mem_writeOnTokens env dt y t hy ?_
      refine mem_rowTokens_of_mem_content env dt _ _ y line t hsome ?_
      unfold contentTokens
      simp only [List.mem_append]
      left; left; right
      rw [if_pos ⟨by rw [hp], hli⟩]
      exact ht
    constructor
    · refine hmem _ ?_
      unfold permissionsTokens
      rw [if_pos hsel]
      exact List.mem_cons_of_mem _ (List.mem_cons_self _ _)
    · refine hmem _ ?_
      unfold permissionsTokens
      rw [if_pos hsel]
      exact List.mem_cons_of_mem _ (List.mem_cons_of_mem _ (List.mem_cons_self _ _))

/-- C2 counterexample: in the two-line permissions sample the root's owner
name is 8 characters and the only other line's is 2; the claim as stated pads
to the maximum over all lines including the root (8), but the code pads to
the maximum over the lines of index 1 and up (2), as the rendered pass
shows. -/
theorem c2_pad_widths_counterexample :
    tree2.options.show_permissions = true
    ∧ user_group_max_lengths env0 tree2 = (2, 2)
    ∧ specUserGroupMaxAll env0 tree2 = (8, 2)
    ∧ Tok.write " ab" ∈ writeOnTokens env0 dt2
    ∧ Tok.write (" " ++ padRight "ab" 8) ∉ writeOnTokens env0 dt2 := by
  decide

/-- C2 witness: the owner-name pad width of the permissions sample applied to
its rendered second row. -/
theorem c2_pad_widths_witness :
    Tok.write (" " ++ padRight (env0.userName lineA.metadata.uid)
        (user_group_max_lengths env0 tree2).1) ∈ writeOnTokens env0 dt2 :=
  ((c2_pad_widths env0 tree2 (by decide)).2.2.2.2 dt2 1 lineA rfl (by decide) (by decide)
      (by decide) (by decide)).1

/-- C3: on the selected row of an interactive pass, the selection background
is queued for the size column ahead of its content, the name column's normal
and match styles get their background overridden to the selection color, and
after the columns the selection background is queued again so the leftover
space up to the line clear is painted with it; the date column keeps its own
dates style (this is the claim as amended: the branch, permissions and date
columns are not switched to the selection background, only the size and name
columns and the trailing clear are). -/
theorem c3_selection_bg (env : Env) (dt : DisplayableTree) (widths : Nat × Nat)
    (sb : Option (Nat × Nat)) (y : Nat) (line : TreeLine) (c : Color)
    (happ : dt.in_app = true)
    (hline : dt.tree.lines[lineIndexOf dt.tree y]? = some line)
    (hsel : lineIndexOf dt.tree y = dt.tree.selection)
    (hbg : dt.skin.selected_line.get_bg = some c) :
    rowTokens env dt widths sb y
      = [Tok.moveTo 0 y]
        ++ contentTokens env dt.skin dt.tree widths line (lineIndexOf dt.tree y) true
        ++ [Tok.setBg dt.skin.selected_line]
        ++ (Tok.clearUntilNewLine :: Tok.resetBgColor :: scrollSeg dt sb y)
        ++ [Tok.write crlf]
    ∧ (∀ s, line.size = some s →
        write_line_size env dt.skin line dt.tree.total_size true
          = [Tok.setBg dt.skin.selected_line, Tok.setFg (dt.skin.name_style line),
             Tok.write (padLeft 5 (env.sizeToString s) ++ " "
               ++ padRight (barString s dt.tree.total_size) 10 ++ " ")])
    ∧ (∀ idx, 0 < idx →
        (write_line_name dt.skin line idx dt.tree.options.pattern true).head?
          = some (Tok.patternStyled dt.tree.options.pattern line.name
              ((dt.skin.name_style line).set_bg c) (dt.skin.char_match.set_bg c)))
    ∧ (∀ d, line.metadata.modified = some d →
        dateTokens dt.skin line = [Tok.styledStr dt.skin.dates (formatDate d)]) := by
  have hlt : lineIndexOf dt.tree y < dt.tree.lines.length := by
    rcases List.getElem?_eq_some.1 hline with ⟨h, _⟩
    exact h
  have hseltrue : rowSelected dt (lineIndexOf dt.tree y) = true := by
    have hlt2 : dt.tree.selection < dt.tree.lines.length := hsel ▸ hlt
    unfold rowSelected
    rw [happ]
    simp [hsel, hlt2]
  refine ⟨?_, ?_, ?_, ?_⟩
  · unfold rowTokens
    simp [hline, happ, hseltrue]
  · intro s hs
    unfold write_line_size
    rw [hs]
    simp
  · intro idx hidx
    have hne : idx ≠ 0 := Nat.pos_iff_ne_zero.1 hidx
    unfold write_line_name
    simp [hne, hbg, CompoundStyle.get_bg] at *
    simp [hbg]
  · intro d hd
    unfold dateTokens write_date
    rw [hd]

/-- C3 counterexample: in the dates sample the second row is selected, yet its
date column is rendered in the dates style, whose background differs from the
selection background — the claim as stated requires every column of the
selected row to carry the selection background. -/
theorem c3_selection_bg_counterexample :
    rowSelected dt3 1 = true
    ∧ Tok.styledStr skin0.dates (formatDate ⟨2020, 1, 2, 3, 4⟩) ∈ writeOnTokens env0 dt3
    ∧ skin0.dates.bg ≠ skin0.selected_line.get_bg := by
  decide

/-- C3 witness: the name column of the selected sample row delegates to the
pattern collaborator with both styles' backgrounds overridden to the
selection color. -/
theorem c3_selection_bg_witness :
    (write_line_name dt3.skin lineA 1 dt3.tree.options.pattern true).head?
      = some (Tok.patternStyled dt3.tree.options.pattern lineA.name
          ((dt3.skin.name_style lineA).set_bg 3) (dt3.skin.char_match.set_bg 3)) :=
  ((c3_selection_bg env0 dt3 (0, 0) none 1 lineA 3 rfl (by decide) (by decide)
      (by decide)).2.2.1) 1 (by decide)

/-- C4: a batch renderer over a tree with scroll offset 0 and fewer than
2 ^ 16 lines has viewport height exactly the line count, and its pass is the
in-order concatenation, one per line, of the line's columns followed by the
default background and the row terminator — no cursor move, no scrollbar
cell, no blank trailing row (this is the claim as amended: it requires the
scroll offset to be 0, since the batch row loop still adds the scroll offset
to every nonzero row index, and the line count to fit in u16, since the
height is the count cast to u16). -/
theorem c4_batch (env : Env) (tree : Tree) (skin : Skin) (w : Nat)
    (hs : tree.scroll = 0) (hlen : tree.lines.length < 65536) :
    (out_of_app tree skin w).area.height = tree.lines.length
    ∧ writeOnTokens env (out_of_app tree skin w)
        = (List.range tree.lines.length).flatMap
            (fun y =>
              (match tree.lines[y]? with
               | some line =>
                   contentTokens env skin tree (user_group_max_lengths env tree) line y false
               | none => [])
              ++ [Tok.setBg skin.default, Tok.write crlf])
    ∧ (∀ t ∈ writeOnTokens env (out_of_app tree skin w), ∀ x yy, t ≠ Tok.moveTo x yy) := by
  have hheight : (out_of_app tree skin w).area.height = tree.lines.length := by
    unfold out_of_app
    exact Nat.mod_eq_of_lt hlen
  have hrow : ∀ y, rowTokens env (out_of_app tree skin w) (user_group_max_lengths env tree)
      none y
      = (match tree.lines[y]? with
         | some line =>
             contentTokens env skin tree (user_group_max_lengths env tree) line y false
         | none => []) ++ [Tok.setBg skin.default, Tok.write crlf] := by
    intro y
    have hli : lineIndexOf tree y = y := by
      unfold lineIndexOf
      rcases Nat.eq_zero_or_pos y with h | h
      · simp [h]
      · simp [Nat.pos_iff_ne_zero.1 h, hs]
    have happ : (out_of_app tree skin w).in_app = false := rfl
    unfold rowTokens
    rw [show (out_of_app tree skin w).tree = tree from rfl, hli]
    simp [happ, rowSelected, show (out_of_app tree skin w).skin = skin from rfl,
      show (out_of_app tree skin w).tree = tree from rfl]
  have hmain : writeOnTokens env (out_of_app tree skin w)
      = (List.range tree.lines.length).flatMap
          (fun y =>
            (match tree.lines[y]? with
             | some line =>
                 contentTokens env skin tree (user_group_max_lengths env tree) line y false
             | none => []) ++ [Tok.setBg skin.default, Tok.write crlf]) := by
    unfold writeOnTokens
    rw [show (out_of_app tree skin w).in_app = false from rfl]
    simp only [if_neg Bool.false_ne_true]
    rw [show (out_of_app tree skin w).tree = tree from rfl, hheight]
    exact congrArg _ (funext hrow)
  refine ⟨hheight, hmain, ?_⟩
  intro t ht x yy heq
  subst heq
  rw [hmain] at ht
  rcases List.mem_flatMap.1 ht with ⟨y, _, hmem⟩
  simp only [List.mem_append] at hmem
  rcases hmem with hmem | hmem
  · split at hmem
    · exact moveTo_not_mem_content env skin tree _ _ y false x yy hmem
    · simp at hmem
  · simp at hmem

/-- C4 counterexample: over the two-line sample tree with scroll offset 1,
the batch pass never renders the second line (its name tokens are absent from
the output), so the claim's "every line of the sequence is rendered exactly
once" fails as stated. -/
theorem c4_batch_counterexample :
    (out_of_app tree4 skin0 80).area.height = 2
    ∧ tree4.lines.length = 2
    ∧ Tok.patternStyled tree4.options.pattern "a" skin0.directory skin0.char_match
        ∉ writeOnTokens env0 (out_of_app tree4 skin0 80) := by
  decide

/-- C4 witness: the amended batch contract instantiated on the three-line
sample tree. -/
theorem c4_batch_witness :
    (out_of_app tree0 skin0 80).area.height = tree0.lines.length :=
  (c4_batch env0 tree0 skin0 80 rfl (by decide)).1

/-- C5: a render pass against a fallible sink either succeeds, exactly when no
write in range fails, leaving the full token sequence written, or aborts at
the first failing write: the failure is reported to the caller, every write
before it is left in place, and no write at or after the failure point is
performed or retried. -/
theorem c5_write_failure (env : Env) (dt : DisplayableTree) (fails : Nat → Bool) :
    ((∀ k, k < (writeOnTokens env dt).length → fails k = false) →
      write_on env dt fails
        = Except.ok (writeOnTokens env dt, (writeOnTokens env dt).length))
    ∧ (∀ w n, write_on env dt fails = Except.error (w, n) →
        n < (writeOnTokens env dt).length ∧ fails n = true
          ∧ w = (writeOnTokens env dt).take n ∧ ∀ k, k < n → fails k = false) := by
  constructor
  · intro h
    unfold write_on
    rw [emitFrom_ok fails _ [] 0 (fun i hi => by simpa using h i hi)]
    simp
  · intro w n h
    unfold write_on at h
    rcases emitFrom_error fails _ [] 0 w n h with ⟨i, hi, hn, hf, hjs, hw⟩
    have hni : n = i := by omega
    subst hni
    refine ⟨hi, hf, by simpa using hw, fun k hk => by simpa using hjs k hk⟩

/-- C5 witness: over the batch sample pass, a sink failing at write 2 aborts
with exactly the first two tokens written, and a never-failing sink writes
everything. -/
theorem c5_write_failure_witness :
    (2 < (writeOnTokens env0 dt5).length ∧ (fun k => decide (k = 2)) 2 = true)
    ∧ write_on env0 dt5 (fun _ => false)
        = Except.ok (writeOnTokens env0 dt5, (writeOnTokens env0 dt5).length) := by
  constructor
  · have h := ((c5_write_failure env0 dt5 (fun k => decide (k = 2))).2
      ((writeOnTokens env0 dt5).take 2) 2 rfl)
    exact ⟨h.1, h.2.1⟩
  · exact (c5_write_failure env0 dt5 (fun _ => false)).1 (fun k hk => rfl)

/-- C6: when dates are shown and the line index is positive, the date column
is rendered between the permissions and name columns: an available modified
time is printed as the 17-cell `YYYY/MM/DD HH:MM ` text in the dates style,
an unavailable one as a dashed placeholder of exactly the same 17-cell width
in the tree style; either way exactly one token is written, so a missing
modified time never aborts the render. -/
theorem c6_date_column (env : Env) (skin : Skin) (tree : Tree) (widths : Nat × Nat)
    (line : TreeLine) (li : Nat) (selected : Bool)
    (hd : tree.options.show_dates = true) (hli : 0 < li) :
    contentTokens env skin tree widths line li selected
      = branchTokens skin tree line li
        ++ (if tree.options.show_sizes ∧ 0 < li then
              write_line_size env skin line tree.total_size selected
            else [])
        ++ (if tree.options.show_permissions ∧ 0 < li then
              permissionsTokens env skin widths line
            else [])
        ++ dateTokens skin line
        ++ write_line_name skin line li tree.options.pattern selected
    ∧ (∀ d, line.metadata.modified = some d →
        dateTokens skin line = [Tok.styledStr skin.dates (formatDate d)]
          ∧ (formatDate d).length = 17)
    ∧ (line.metadata.modified = none →
        dateTokens skin line = [Tok.styledStr skin.tree datePlaceholder])
    ∧ datePlaceholder.length = 17
    ∧ (dateTokens skin line).length = 1 := by
  refine ⟨?_, ?_, ?_, by decide, ?_⟩
  · unfold contentTokens
    simp [hd, hli]
  · intro d hmod
    unfold dateTokens write_date
    rw [hmod]
    exact ⟨rfl, formatDate_length d⟩
  · intro hmod
    unfold dateTokens
    rw [hmod]
  · unfold dateTokens
    split <;> simp [write_date]

/-- C6 witness: the date column of the sample line with a readable modified
time, printed in the dates style at the fixed 17-cell width. -/
theorem c6_date_column_witness :
    dateTokens skin0 lineA = [Tok.styledStr skin0.dates (formatDate ⟨2020, 1, 2, 3, 4⟩)]
      ∧ (formatDate ⟨2020, 1, 2, 3, 4⟩).length = 17 :=
  ((c6_date_column env0 skin0 tree3 (0, 0) lineA 1 false (by decide) (by decide)).2.1)
    ⟨2020, 1, 2, 3, 4⟩ (by decide)

/-- C7: the size column appears exactly when sizes are shown and the line
index is positive; a line with a size prints the human-readable size
right-aligned to 5 cells, a space, the 10-cell proportional bar whose filled
cells are the floor of the line's fraction of the tree total scaled by 10 and
clamped to [0, 10], and a trailing space — 17 cells in all when the size text
fits its field — while a line without a size prints a dashed placeholder of
the same 17-cell total width. -/
theorem c7_size_column (env : Env) (skin : Skin) (tree : Tree) (widths : Nat × Nat)
    (line : TreeLine) (li : Nat) (selected : Bool) :
    (tree.options.show_sizes ∧ 0 < li →
      contentTokens env skin tree widths line li selected
        = branchTokens skin tree line li
          ++ write_line_size env skin line tree.total_size selected
          ++ (if tree.options.show_permissions ∧ 0 < li then
                permissionsTokens env skin widths line
              else [])
          ++ (if tree.options.show_dates ∧ 0 < li then dateTokens skin line else [])
          ++ write_line_name skin line li tree.options.pattern selected)
    ∧ (¬(tree.options.show_sizes ∧ 0 < li) →
      contentTokens env skin tree widths line li selected
        = branchTokens skin tree line li
          ++ (if tree.options.show_permissions ∧ 0 < li then
                permissionsTokens env skin widths line
              else [])
          ++ (if tree.options.show_dates ∧ 0 < li then dateTokens skin line else [])
          ++ write_line_name skin line li tree.options.pattern selected)
    ∧ (∀ s, line.size = some s →
        write_line_size env skin line tree.total_size selected
          = (if selected then [Tok.setBg skin.selected_line] else [])
            ++ [Tok.setFg (skin.name_style line),
                Tok.write (padLeft 5 (env.sizeToString s) ++ " "
                  ++ padRight (barString s tree.total_size) 10 ++ " ")]
          ∧ (barString s tree.total_size).length = 10
          ∧ barFilled s tree.total_size = min 10 ⌊sizePartOf s tree.total_size * 10⌋₊
          ∧ ((env.sizeToString s).length ≤ 5 →
              (padLeft 5 (env.sizeToString s) ++ " "
                ++ padRight (barString s tree.total_size) 10 ++ " ").length
                = sizePlaceholder.length))
    ∧ (line.size = none →
        write_line_size env skin line tree.total_size selected
          = [Tok.styledStr skin.tree sizePlaceholder])
    ∧ sizePlaceholder.length = 17 := by
  refine ⟨?_, ?_, ?_, ?_, by decide⟩
  · intro h
    unfold contentTokens
    rw [if_pos h]
  · intro h
    unfold contentTokens
    rw [if_neg h]
    simp
  · intro s hs
    refine ⟨?_, barString_length s tree.total_size, barFilled_eq_floor s tree.total_size, ?_⟩
    · unfold write_line_size
      rw [hs]
    · intro hlen
      have hb := barString_length s tree.total_size
      have hp1 := padLeft_length 5 (env.sizeToString s) hlen
      have hp2 := padRight_length (barString s tree.total_size) 10 (by omega)
      have hsp : (" " : String).length = 1 := rfl
      simp [String.length_append, hp1, hp2, hsp]
      decide
  · intro hs
    unfold write_line_size
    rw [hs]

/-- C7 witness: the size column of the sample sized line: 60 of a 100-byte
total gives a bar filled on 6 of its 10 cells, and the column is as wide as
the placeholder. -/
theorem c7_size_column_witness :
    (tree7.options.show_sizes ∧ 0 < 1)
    ∧ write_line_size env0 skin0 lineA tree7.total_size false
        = [Tok.setFg (skin0.name_style lineA),
           Tok.write (padLeft 5 (env0.sizeToString 60) ++ " "
             ++ padRight (barString 60 tree7.total_size) 10 ++ " ")]
    ∧ barFilled 60 tree7.total_size = 6 := by
  have h := (c7_size_column env0 skin0 tree7 (0, 0) lineA 1 false).2.2.1 60 (by decide)
  refine ⟨by decide, ?_, by decide⟩
  rw [h.1]
  rfl

/-- C8: the root row (index 0, depth 0) renders no branch glyph and no size,
permissions or date column whatever the option toggles: its row is exactly
the name column between the row chrome, the name column starts by printing
the line's full path as plain styled text, and the pattern/highlight
collaborator is never invoked for it. -/
theorem c8_root_row (env : Env) (dt : DisplayableTree) (widths : Nat × Nat)
    (sb : Option (Nat × Nat)) (line : TreeLine)
    (h0 : dt.tree.lines[0]? = some line) (hd : line.depth = 0) :
    rowTokens env dt widths sb 0
      = (if dt.in_app then [Tok.moveTo 0 0] else [])
        ++ write_line_name dt.skin line 0 dt.tree.options.pattern (rowSelected dt 0)
        ++ [Tok.setBg (if rowSelected dt 0 then dt.skin.selected_line else dt.skin.default)]
        ++ (if dt.in_app then Tok.clearUntilNewLine :: Tok.resetBgColor :: scrollSeg dt sb 0
            else [])
        ++ [Tok.write crlf]
    ∧ (∀ sel, ∃ st, (write_line_name dt.skin line 0 dt.tree.options.pattern sel).head?
        = some (Tok.styledStr st line.path))
    ∧ (∀ sel p n st cm,
        Tok.patternStyled p n st cm ∉ write_line_name dt.skin line 0 dt.tree.options.pattern sel) := by
  refine ⟨?_, ?_, ?_⟩
  · unfold rowTokens
    rw [show lineIndexOf dt.tree 0 = 0 from rfl]
    simp [h0, contentTokens, branchTokens, hd]
  · intro sel
    cases sel with
    | false => exact ⟨dt.skin.name_style line, by simp [write_line_name]⟩
    | true =>
        cases hbg : dt.skin.selected_line.get_bg with
        | none => exact ⟨dt.skin.name_style line, by simp [write_line_name, hbg]⟩
        | some c => exact ⟨(dt.skin.name_style line).set_bg c, by simp [write_line_name, hbg]⟩
  · intro sel p n st cm h
    unfold write_line_name at h
    simp only [List.mem_append] at h
    rcases h with h | h
    · simp at h
    · split at h
      · split at h <;> simp at h
      · unfold symlinkTail at h
        simp only [List.mem_append] at h
        rcases h with h | h
        · simp at h
        · split at h <;> simp at h
      · unfold symlinkTail at h
        simp only [List.mem_append] at h
        rcases h with h | h
        · simp at h
        · split at h <;> simp at h
      · simp at h

/-- C8 witness: the root row of the permissions sample prints its full path
and is free of the highlight collaborator. -/
theorem c8_root_row_witness :
    ∃ st, (write_line_name dt2.skin rootLine 0 dt2.tree.options.pattern false).head?
      = some (Tok.styledStr st rootLine.path) :=
  ((c8_root_row env0 dt2 (0, 0) none rootLine (by decide) (by decide)).2.1) false

/-- C9: a batch pass fixes its scrollbar argument to none and its rows carry
no scrollbar cell (and no cursor move); no scrollbar is computed when the
line count fits the viewport height; one is computed when it does not; and
when a thumb span is computed, each viewport row receives, in the reserved
rightmost column, the thumb glyph exactly when its index lies inside the span
and the track glyph otherwise. -/
theorem c9_scrollbar (env : Env) (dt : DisplayableTree) :
    (dt.in_app = false →
      ∀ widths sb y, rowTokens env dt widths sb y
        = (match dt.tree.lines[lineIndexOf dt.tree y]? with
           | some line =>
               contentTokens env dt.skin dt.tree widths line (lineIndexOf dt.tree y)
                 (rowSelected dt (lineIndexOf dt.tree y))
           | none => [])
          ++ [Tok.setBg (if rowSelected dt (lineIndexOf dt.tree y) then dt.skin.selected_line
               else dt.skin.default)]
          ++ [Tok.write crlf])
    ∧ (dt.in_app = false →
        writeOnTokens env dt
          = (List.range dt.area.height).flatMap
              (rowTokens env dt (user_group_max_lengths env dt.tree) none))
    ∧ (dt.tree.lines.length ≤ dt.area.height →
        areaScrollbar dt.area dt.tree.scroll dt.tree.lines.length = none)
    ∧ (∀ y, scrollSeg dt none y = [])
    ∧ (dt.area.height < dt.tree.lines.length →
        ∃ span, areaScrollbar dt.area dt.tree.scroll dt.tree.lines.length = some span)
    ∧ (∀ sctop scbottom y, scrollSeg dt (some (sctop, scbottom)) y
        = [Tok.moveTo dt.area.width y,
           Tok.styledStr (if sctop ≤ y ∧ y ≤ scbottom then dt.skin.scrollbar_thumb
             else dt.skin.scrollbar_track) "▐"]) := by
  refine ⟨?_, ?_, ?_, fun y => rfl, ?_, fun a b y => rfl⟩
  · intro happ widths sb y
    unfold rowTokens
    simp [happ]
  · intro happ
    unfold writeOnTokens
    rw [happ]
    simp
  · intro h
    unfold areaScrollbar
    rw [if_pos h]
  · intro h
    unfold areaScrollbar
    rw [if_neg (by omega)]
    exact ⟨_, rfl⟩

/-- C9 witness: the five-row viewport fits the three-line sample and computes
no scrollbar; the two-row viewport does not fit it and computes one; and with
the computed span (0, 0), row 1 gets the track glyph in the rightmost
column. -/
theorem c9_scrollbar_witness :
    areaScrollbar dt9b.area dt9b.tree.scroll dt9b.tree.lines.length = none
    ∧ (∃ span, areaScrollbar dt9.area dt9.tree.scroll dt9.tree.lines.length = some span)
    ∧ scrollSeg dt9 (some (0, 0)) 1
        = [Tok.moveTo dt9.area.width 1, Tok.styledStr dt9.skin.scrollbar_track "▐"] := by
  refine ⟨(c9_scrollbar env0 dt9b).2.2.1 (by decide),
    (c9_scrollbar env0 dt9).2.2.2.2.1 (by decide), ?_⟩
  rw [(c9_scrollbar env0 dt9).2.2.2.2.2 0 0 1]
  decide

/-- C10: in both modes, viewport row 0 maps to line index 0 whatever the
scroll offset, every row of positive index maps to its index plus the scroll
offset, a mapped index inside the sequence renders that line's columns, and a
mapped index beyond the sequence renders a row with no content. -/
theorem c10_row_mapping (env : Env) (dt : DisplayableTree) (widths : Nat × Nat)
    (sb : Option (Nat × Nat)) (y : Nat) :
    lineIndexOf dt.tree 0 = 0
    ∧ (0 < y → lineIndexOf dt.tree y = y + dt.tree.scroll)
    ∧ (∀ line, dt.tree.lines[lineIndexOf dt.tree y]? = some line →
        rowTokens env dt widths sb y
          = (if dt.in_app then [Tok.moveTo 0 y] else [])
            ++ contentTokens env dt.skin dt.tree widths line (lineIndexOf dt.tree y)
                (rowSelected dt (lineIndexOf dt.tree y))
            ++ [Tok.setBg (if rowSelected dt (lineIndexOf dt.tree y) then dt.skin.selected_line
                 else dt.skin.default)]
            ++ (if dt.in_app then Tok.clearUntilNewLine :: Tok.resetBgColor :: scrollSeg dt sb y
                else [])
            ++ [Tok.write crlf])
    ∧ (dt.tree.lines[lineIndexOf dt.tree y]? = none →
        rowTokens env dt widths sb y
          = (if dt.in_app then [Tok.moveTo 0 y] else [])
            ++ [Tok.setBg dt.skin.default]
            ++ (if dt.in_app then Tok.clearUntilNewLine :: Tok.resetBgColor :: scrollSeg dt sb y
                else [])
            ++ [Tok.write crlf]) := by
  refine ⟨rfl, ?_, ?_, ?_⟩
  · intro h
    unfold lineIndexOf
    rw [if_neg (Nat.pos_iff_ne_zero.1 h)]
  · intro line h
    unfold rowTokens
    simp [h]
  · intro h
    have hge : dt.tree.lines.length ≤ lineIndexOf dt.tree y := by
      exact List.getElem?_eq_none_iff.1 h
    have hsel : rowSelected dt (lineIndexOf dt.tree y) = false := by
      unfold rowSelected
      simp [Nat.not_lt.2 hge]
    unfold rowTokens
    simp [h, hsel]

/-- C10 witness: in the interactive dates sample, row 0 maps to the root and
row 1 maps to index 1 plus the scroll offset. -/
theorem c10_row_mapping_witness :
    lineIndexOf dt3.tree 0 = 0 ∧ lineIndexOf dt3.tree 1 = 1 + dt3.tree.scroll :=
  ⟨(c10_row_mapping env0 dt3 (0, 0) none 1).1,
   (c10_row_mapping env0 dt3 (0, 0) none 1).2.1 (by decide)⟩

end Broot
